import Mathlib

/-!
Shallow embedding of the adaptive-quality / IPC core of
`src/gst-variable-rtsp-server.c` (gst-gateworks-apps).

The source file contains two variants of the program: v1.4 (snake_case
identifiers, `struct stream_info`) and v1.5 (camelCase identifiers,
`struct StreamInfo`).  Definitions below keep the variant's identifier
style: `change_quant` is the v1.4 function, `changeQuant` the v1.5 one,
and so on.  C `gint` values are modelled as unbounded `Int`; the C `/`
on nonnegative operands (the only way the program divides) is truncating
division, modelled by `Int.tdiv`.
-/

namespace GstRtsp

/-- Configuration fields of `struct stream_info` / `struct StreamInfo`
that the quality controller reads (immutable after option parsing). -/
structure StreamConfig where
  minQuantLevel : Int
  maxQuantLevel : Int
  minBitrate : Int
  maxBitrate : Int
  steps : Int
  enableVariableMode : Bool
deriving DecidableEq, Repr

/-- Quant step factor: `(si->max_quant_lvl - si->min_quant_lvl) / si->steps`
(v1.4 line 724, v1.5 line 2101), C truncating division. -/
def quantStep (cfg : StreamConfig) : Int :=
  (cfg.maxQuantLevel - cfg.minQuantLevel).tdiv cfg.steps

/-- Quant level computed by `change_quant` / `changeQuant`
(v1.4 lines 728-732, v1.5 lines 2105-2109):
`curr = (num_cli - 1) * step + min`, then capped to `max`. -/
def computeQuant (numClients : Int) (cfg : StreamConfig) : Int :=
  let q := (numClients - 1) * quantStep cfg + cfg.minQuantLevel
  if q > cfg.maxQuantLevel then cfg.maxQuantLevel else q

/-- Bitrate step factor: `(si->max_bitrate - si->min_bitrate) / si->steps`
(v1.4 line 753, v1.5 line 2131), C truncating division. -/
def bitrateStep (cfg : StreamConfig) : Int :=
  (cfg.maxBitrate - cfg.minBitrate).tdiv cfg.steps

/-- Bitrate computed by `change_bitrate` / `changeBitrate`
(v1.4 lines 756-762, v1.5 lines 2134-2141):
`curr = max - (num_cli - 1) * step`, then snapped up to `min`. -/
def computeBitrate (numClients : Int) (cfg : StreamConfig) : Int :=
  let b := cfg.maxBitrate - (numClients - 1) * bitrateStep cfg
  if b < cfg.minBitrate then cfg.minBitrate else b

/-- Mutable session fields of `struct stream_info` / `struct StreamInfo`
touched by the client handlers: the client count, the connected flag,
whether `si->stream[encoder]` is bound (non-NULL), and the stored current
quality values. -/
structure ServerState where
  numConnectedClients : Int
  connected : Bool
  encoderBound : Bool
  currentQuantLevel : Int
  currentBitrate : Int
deriving DecidableEq, Repr

/-- v1.4 `change_quant` (lines 718-741): guarded by `si->stream[encoder]`;
stores the newly computed quant level and writes the encoder `quant-param`
property (the returned flag) only when the new value differs from the old. -/
def change_quant (cfg : StreamConfig) (s : ServerState) : ServerState × Bool :=
  if s.encoderBound = true then
    let c := s.currentQuantLevel
    let q := computeQuant s.numConnectedClients cfg
    if q ≠ c then ({ s with currentQuantLevel := q }, true)
    else ({ s with currentQuantLevel := q }, false)
  else (s, false)

/-- v1.5 `changeQuant` (lines 2095-2119): like `change_quant` but additionally
guarded by `si->maxQuantLevel > 0`. -/
def changeQuant (cfg : StreamConfig) (s : ServerState) : ServerState × Bool :=
  if s.encoderBound = true ∧ 0 < cfg.maxQuantLevel then
    let c := s.currentQuantLevel
    let q := computeQuant s.numConnectedClients cfg
    if q ≠ c then ({ s with currentQuantLevel := q }, true)
    else ({ s with currentQuantLevel := q }, false)
  else (s, false)

/-- v1.4 `change_bitrate` (lines 747-771): guarded by `si->stream[encoder]`;
stores the newly computed bitrate and writes the encoder `bitrate` property
(the returned flag) only when the new value differs from the old. -/
def change_bitrate (cfg : StreamConfig) (s : ServerState) : ServerState × Bool :=
  if s.encoderBound = true then
    let c := s.currentBitrate
    let b := computeBitrate s.numConnectedClients cfg
    if b ≠ c then ({ s with currentBitrate := b }, true)
    else ({ s with currentBitrate := b }, false)
  else (s, false)

/-- v1.5 `changeBitrate` (lines 2125-2151): identical body to the v1.4
`change_bitrate`. -/
def changeBitrate (cfg : StreamConfig) (s : ServerState) : ServerState × Bool :=
  if s.encoderBound = true then
    let c := s.currentBitrate
    let b := computeBitrate s.numConnectedClients cfg
    if b ≠ c then ({ s with currentBitrate := b }, true)
    else ({ s with currentBitrate := b }, false)
  else (s, false)

/-- Which quality adaptation a handler invoked. -/
inductive Adaptation where
  | bitrate
  | quant
deriving DecidableEq, Repr

/-- v1.4 adaptation dispatch (`new_client_handler` lines 866-874 and
`client_close_handler` lines 819-827): `if (si->curr_bitrate)
change_bitrate(si); else change_quant(si);`. -/
def adaptV14 (cfg : StreamConfig) (s : ServerState) :
    ServerState × List Adaptation :=
  if s.currentBitrate ≠ 0 then ((change_bitrate cfg s).1, [.bitrate])
  else ((change_quant cfg s).1, [.quant])

/-- v1.5 adaptation dispatch (`newClientHandler` lines 2267-2280 and
`clientCloseHandler` lines 2202-2215): `if (si->maxBitrate)
changeBitrate(si); else changeQuant(si);`. -/
def adaptV15 (cfg : StreamConfig) (s : ServerState) :
    ServerState × List Adaptation :=
  if cfg.maxBitrate ≠ 0 then ((changeBitrate cfg s).1, [.bitrate])
  else ((changeQuant cfg s).1, [.quant])

/-- External session lifecycle events delivered to the handlers.
`mediaConfigure found` is the pipeline-ready callback; `found` is whether
`gst_bin_get_by_name` locates the `enc0` encoder element. -/
inductive Event where
  | attach
  | detach
  | mediaConfigure (found : Bool)
deriving DecidableEq, Repr

/-- v1.4 event step, the parts of `new_client_handler` (lines 835-883),
`client_close_handler` (lines 778-829) and `media_configure_handler`
(lines 642-712) that touch the modelled state.  The second component
records which quality adaptations the event invoked. -/
def stepV14 (cfg : StreamConfig) (s : ServerState) (e : Event) :
    ServerState × List Adaptation :=
  match e with
  | .attach =>
    if s.numConnectedClients + 1 = 1 then
      ({ s with numConnectedClients := s.numConnectedClients + 1,
                connected := true }, [])
    else if cfg.enableVariableMode = true then
      adaptV14 cfg { s with numConnectedClients := s.numConnectedClients + 1,
                            connected := true }
    else
      ({ s with numConnectedClients := s.numConnectedClients + 1,
                connected := true }, [])
  | .detach =>
    if s.numConnectedClients - 1 = 0 then
      ({ s with numConnectedClients := s.numConnectedClients - 1,
                connected := false, encoderBound := false }, [])
    else if cfg.enableVariableMode = true then
      adaptV14 cfg { s with numConnectedClients := s.numConnectedClients - 1 }
    else
      ({ s with numConnectedClients := s.numConnectedClients - 1 }, [])
  | .mediaConfigure found => ({ s with encoderBound := found }, [])

/-- v1.5 event step: identical control flow to `stepV14` but dispatching the
adaptation on `si->maxBitrate` (`newClientHandler` lines 2225-2289,
`clientCloseHandler` lines 2159-2217). -/
def stepV15 (cfg : StreamConfig) (s : ServerState) (e : Event) :
    ServerState × List Adaptation :=
  match e with
  | .attach =>
    if s.numConnectedClients + 1 = 1 then
      ({ s with numConnectedClients := s.numConnectedClients + 1,
                connected := true }, [])
    else if cfg.enableVariableMode = true then
      adaptV15 cfg { s with numConnectedClients := s.numConnectedClients + 1,
                            connected := true }
    else
      ({ s with numConnectedClients := s.numConnectedClients + 1,
                connected := true }, [])
  | .detach =>
    if s.numConnectedClients - 1 = 0 then
      ({ s with numConnectedClients := s.numConnectedClients - 1,
                connected := false, encoderBound := false }, [])
    else if cfg.enableVariableMode = true then
      adaptV15 cfg { s with numConnectedClients := s.numConnectedClients - 1 }
    else
      ({ s with numConnectedClients := s.numConnectedClients - 1 }, [])
  | .mediaConfigure found => ({ s with encoderBound := found }, [])

/-- v1.4 state at the start of the main loop: no clients, no pipeline, and
`curr_bitrate = max_bitrate` (the initializer sets both to `CURR_BR`, and the
`-b` option re-assigns `curr_bitrate = max_bitrate`; `curr_quant_lvl` likewise
ends up equal to `min_quant_lvl`). -/
def initStateV14 (cfg : StreamConfig) : ServerState :=
  { numConnectedClients := 0, connected := false, encoderBound := false,
    currentQuantLevel := cfg.minQuantLevel,
    currentBitrate := cfg.maxBitrate }

/-- States of the v1.4 server reachable from startup by lifecycle events. -/
inductive ReachV14 (cfg : StreamConfig) : ServerState → Prop where
  | init : ReachV14 cfg (initStateV14 cfg)
  | step {s : ServerState} (e : Event) (h : ReachV14 cfg s) :
      ReachV14 cfg (stepV14 cfg s e).1

/-- Constraints the v1.4 option parsing and startup validation establish:
`min_bitrate` is forced into `[1, MAX_BR]`, `max_bitrate` into `[0, MAX_BR]`,
and `steps < 1` is rejected at startup. -/
def ValidCfgV14 (cfg : StreamConfig) : Prop :=
  1 ≤ cfg.minBitrate ∧ 0 ≤ cfg.maxBitrate ∧ 1 ≤ cfg.steps

instance (cfg : StreamConfig) : Decidable (ValidCfgV14 cfg) := by
  unfold ValidCfgV14; infer_instance

/-- Invariant of the v1.4 loop: the stored bitrate is nonnegative and is
nonzero exactly when a nonzero max bitrate is configured. -/
def BitrateInv (cfg : StreamConfig) (s : ServerState) : Prop :=
  0 ≤ s.currentBitrate ∧ (0 < s.currentBitrate ↔ 0 < cfg.maxBitrate)

/-- Default v1.5 configuration from the `struct StreamInfo` initializer in
`main` (lines 2300-2326): `maxQuantLevel = atoi(MIN_QUANT_LVL)` with comment
`Default to min, to disable the adjustment`, `maxBitrate = atoi(MIN_BR) = 0`,
`steps = atoi(DEFAULT_STEPS) - 1 = 4`, `minBitrate = 1`, variable mode on. -/
def defaultStreamInfoV15 : StreamConfig :=
  { minQuantLevel := 0, maxQuantLevel := 0, minBitrate := 1,
    maxBitrate := 0, steps := 4, enableVariableMode := true }

/-- Environment a `setparam` command runs against: the session flag, whether
`si->stream[pipeline]` is non-NULL, the outcomes of the external GStreamer
lookups (`gst_bin_get_by_name`, `gst_element_get_static_pad`), and whether the
numeric conversion of the parameter value reported a failure (`errno != 0`
after `strtod` in v1.5; the v1.4 `atof` can never report one).  Per GLib
semantics, a pad lookup on a NULL element yields NULL, and setting a property
on a NULL object is a logged critical warning that sets nothing. -/
structure SetParamCtx where
  connected : Bool
  pipelineBound : Bool
  elementFound : Bool
  padFound : Bool
  parseErrnoSet : Bool
deriving DecidableEq, Repr

/-- Outcome of one `setparam` command.  `setOnNothing` is the path where the
element lookup failed but the handler (which does not return there) proceeds
to `g_object_set_property` on the NULL element, which GLib rejects with a
warning.  `fatal` would be an aborting error path; no branch produces it. -/
inductive SetParamResult where
  | notConnected
  | notStreaming
  | padNotFound
  | parseError
  | setOnPad
  | setOnElement
  | setOnNothing
  | fatal
deriving DecidableEq, Repr

/-- Whether a `setparam` outcome actually set a property on a live object. -/
def propertyWasSet : SetParamResult → Bool
  | .setOnPad => true
  | .setOnElement => true
  | _ => false

/-- Whether a `setparam` outcome aborted the session. -/
def isFatalResult : SetParamResult → Bool
  | .fatal => true
  | _ => false

/-- v1.5 `doCommandSetParameter` (lines 1519-1607).  Control flow: return on
not-connected and NULL-pipeline; a failed element lookup is only logged (no
return); a requested pad is looked up (NULL if the element was NULL) and a
NULL pad returns; `strtod` with `errno != 0` skips the property write;
otherwise the property is set on the pad or on the element. -/
def doCommandSetParameter (ctx : SetParamCtx) (padName : String) :
    SetParamResult :=
  if ctx.connected = false then .notConnected
  else if ctx.pipelineBound = false then .notStreaming
  else if padName ≠ "" then
    if (ctx.elementFound && ctx.padFound) = false then .padNotFound
    else if ctx.parseErrnoSet = true then .parseError
    else .setOnPad
  else if ctx.parseErrnoSet = true then .parseError
  else if ctx.elementFound = true then .setOnElement
  else .setOnNothing

/-- v1.4 `do_command_setparam` (lines 199-278).  Same control flow except:
every failure path (and also the success path) sends a best-effort
`not streaming` status reply, counted by the second component, and the value
conversion uses `atof`, which has no failure path. -/
def do_command_setparam (ctx : SetParamCtx) (padName : String) :
    SetParamResult × Nat :=
  if ctx.connected = false then (.notConnected, 1)
  else if ctx.pipelineBound = false then (.notStreaming, 1)
  else
    let elemMsgs : Nat := if ctx.elementFound = true then 0 else 1
    if padName ≠ "" then
      if (ctx.elementFound && ctx.padFound) = false then
        (.padNotFound, elemMsgs + 1)
      else (.setOnPad, elemMsgs + 1)
    else if ctx.elementFound = true then (.setOnElement, elemMsgs + 1)
    else (.setOnNothing, elemMsgs + 1)

/-- Environment of the command `setparam:enc0::bitrate:abc` on a live
session: connected, pipeline bound, element `enc0` found, no pad requested.
The parameter value `abc` is unparsable as a number, yet `parseErrnoSet`
is `false`: the v1.5 code clears `errno` and tests it after `strtod`
(lines 1582-1584), but the C library sets `errno` (to `ERANGE`) only for
range errors — a string on which no conversion can be performed yields 0.0
with `errno` untouched — and the v1.4 `atof` (line 262) reports nothing. -/
def unparsableValueCtx : SetParamCtx :=
  { connected := true, pipelineBound := true, elementFound := true,
    padFound := true, parseErrnoSet := false }

/-- The character-copy loop of `process_command` / `processCommand`
(v1.4 lines 529-545, v1.5 lines 1881-1901): each character is compared with
`:` and `\n`; a delimiter bumps the field counter, a non-delimiter character
is appended to `params[delimeter]` while `delimeter <= 4`, and any further
character is only logged as `extra character` (counted by the last
component). -/
def parseLoop : List Char → (Fin 5 → List Char) → Nat → Nat →
    (Fin 5 → List Char) × Nat × Nat
  | [], params, d, extra => (params, d, extra)
  | c :: rest, params, d, extra =>
    if c = ':' ∨ c = '\n' then parseLoop rest params (d + 1) extra
    else if h : d ≤ 4 then
      parseLoop rest
        (Function.update params ⟨d, by omega⟩ (params ⟨d, by omega⟩ ++ [c]))
        d extra
    else parseLoop rest params d (extra + 1)

/-- The parse of one command line, starting from empty fields
(`char params[5][256] = {"","","","",""}` and `delimeter = 0`). -/
def processParse (cmd : List Char) : (Fin 5 → List Char) × Nat × Nat :=
  parseLoop cmd (fun _ => []) 0 0

/-- Reference splitter: the colon-separated fields of a line (the line,
coming from `reader`, contains no newline).  The head of the result is the
first field; a trailing `:` yields an empty last field. -/
def colonSplit : List Char → List (List Char)
  | [] => [[]]
  | c :: rest =>
    if c = ':' then [] :: colonSplit rest
    else (c :: (colonSplit rest).headI) :: (colonSplit rest).tail

/-- The dispatch decision of `process_command` / `processCommand`
(v1.4 lines 547-567, v1.5 lines 1903-1929). -/
inductive CommandDispatch where
  | setparamCmd (elementName padName paramName paramValue : List Char)
  | rejectedSetparam
  | printbinCmd
  | statusCmd
  | undefinedAction
deriving DecidableEq, Repr

/-- Dispatch of one parsed command line: `setparam` is handed to the
setparam handler only when `delimeter >= 4`, otherwise it is rejected with
`not enough values`; `printbin` and `status` take no fields; anything else
is logged as an undefined action. -/
def processCommand (cmd : List Char) : CommandDispatch :=
  if (processParse cmd).1 0 = "setparam".toList then
    if (processParse cmd).2.1 < 4 then .rejectedSetparam
    else .setparamCmd ((processParse cmd).1 1) ((processParse cmd).1 2)
      ((processParse cmd).1 3) ((processParse cmd).1 4)
  else if (processParse cmd).1 0 = "printbin".toList then .printbinCmd
  else if (processParse cmd).1 0 = "status".toList then .statusCmd
  else .undefinedAction

/-- The scenario configuration of C7: `minQuant=0, maxQuant=51, steps=4`. -/
def scenarioConfig : StreamConfig :=
  { minQuantLevel := 0, maxQuantLevel := 51, minBitrate := 1,
    maxBitrate := 0, steps := 4, enableVariableMode := true }

/-- One result of the non-blocking `read(fd, &ch, 1)` call in `reader`:
either one byte arrived, or the read returned `<= 0` (no more data). -/
inductive ReadResult where
  | byte (c : Char)
  | noData
deriving DecidableEq, Repr

/-- The `reader` poll callback (v1.4 lines 570-598, v1.5 lines 1932-1963),
run on a stream of read results with the local accumulation buffer `buf`
(`ch_buffer`/`pos`): a non-newline byte is appended; otherwise, if the buffer
holds 256 or more bytes it is discarded as an invalid command, else if it is
nonempty it is dispatched to the command processor; when the read returns no
data the same discard/dispatch chain runs once and the callback returns.
The result lists the dispatched command lines in order. -/
def readerRun : List ReadResult → List Char → List (List Char)
  | [], _ => []
  | .byte c :: rest, buf =>
    if c ≠ '\n' then readerRun rest (buf ++ [c])
    else if 256 ≤ buf.length then readerRun rest []
    else if 0 < buf.length then buf :: readerRun rest []
    else readerRun rest buf
  | .noData :: _, buf =>
    if 256 ≤ buf.length then []
    else if 0 < buf.length then [buf]
    else []

/-- Newline-separated segments of a byte sequence, the trailing (unterminated)
segment included. -/
def lineSplit : List Char → List (List Char)
  | [] => [[]]
  | c :: rest =>
    if c = '\n' then [] :: lineSplit rest
    else (c :: (lineSplit rest).headI) :: (lineSplit rest).tail

/-- A segment the reader actually dispatches: nonempty and under the
256-byte buffer limit. -/
def validLine (l : List Char) : Bool :=
  decide (0 < l.length) && decide (l.length < 256)

/-- State of the status-pipe transport: whether `--status-pipe` was given,
the fd field (`status_pipe_fd`, initially 0 in v1.4; `statusPipeFd`,
initially `NO_FILE = -1` in v1.5), the `FILE*` stream, and the number of
`open` system calls performed so far (the observable side effect). -/
structure StatusPipeState where
  statusPipeConfigured : Bool
  statusPipeFd : Int
  statusPipeStream : Option Unit
  openCalls : Nat
deriving DecidableEq, Repr

/-- Model of `fdopen(fd, "w")`: fails (NULL) on an invalid descriptor. -/
def fdopenModel (fd : Int) : Option Unit :=
  if 0 ≤ fd then some () else none

/-- v1.4 `setup_status_pipe_if_needed` (lines 154-174): guarded by
`status_pipe != NULL && status_pipe_fd == 0`; stores whatever `open`
returned (-1 on failure) in the fd field and unconditionally `fdopen`s it.
`openRes k` is the result of the k-th `open` call of the process. -/
def setup_status_pipe_if_needed (openRes : Nat → Int) (s : StatusPipeState) :
    StatusPipeState :=
  if s.statusPipeConfigured = true ∧ s.statusPipeFd = 0 then
    { s with statusPipeFd := openRes s.openCalls,
             openCalls := s.openCalls + 1,
             statusPipeStream := fdopenModel (openRes s.openCalls) }
  else s

/-- v1.5 `setupStatusPipeIfNeeded` (lines 1464-1490): guarded by
`statusPipe != NULL && statusPipeFd == NO_FILE` (= -1); on `open` failure it
stores the returned fd and returns early, otherwise it `fdopen`s it. -/
def setupStatusPipeIfNeeded (openRes : Nat → Int) (s : StatusPipeState) :
    StatusPipeState :=
  if s.statusPipeConfigured = true ∧ s.statusPipeFd = -1 then
    if openRes s.openCalls ≤ 0 then
      { s with statusPipeFd := openRes s.openCalls,
               openCalls := s.openCalls + 1 }
    else
      { s with statusPipeFd := openRes s.openCalls,
               openCalls := s.openCalls + 1,
               statusPipeStream := fdopenModel (openRes s.openCalls) }
  else s

/-- Where one status emission went. -/
inductive EmitTarget where
  | pipe
  | log
deriving DecidableEq, Repr

/-- v1.4 `send_status_pipe_msg` (lines 176-197): lazily sets up the pipe,
then writes to the stream if it exists and otherwise falls back to the
process log stream (`printf`). -/
def send_status_pipe_msg (openRes : Nat → Int) (s : StatusPipeState) :
    StatusPipeState × EmitTarget :=
  let s1 := setup_status_pipe_if_needed openRes s
  (s1, if s1.statusPipeStream.isSome then .pipe else .log)

/-- v1.5 `sendStatusPipeMessage` (lines 1492-1517): same shape with the v1.5
setup. -/
def sendStatusPipeMessage (openRes : Nat → Int) (s : StatusPipeState) :
    StatusPipeState × EmitTarget :=
  let s1 := setupStatusPipeIfNeeded openRes s
  (s1, if s1.statusPipeStream.isSome then .pipe else .log)

/-- Repeated v1.4 status emissions: `sendIterV14 openRes s n` is the state
and target after `n + 1` emissions starting from `s`. -/
def sendIterV14 (openRes : Nat → Int) (s : StatusPipeState) :
    Nat → StatusPipeState × EmitTarget
  | 0 => send_status_pipe_msg openRes s
  | n + 1 => send_status_pipe_msg openRes (sendIterV14 openRes s n).1

lemma quantStep_nonneg (cfg : StreamConfig)
    (hq : cfg.minQuantLevel ≤ cfg.maxQuantLevel) (hs : 1 ≤ cfg.steps) :
    0 ≤ quantStep cfg :=
  Int.tdiv_nonneg (by omega) (by omega)

lemma bitrateStep_nonneg (cfg : StreamConfig)
    (hb : cfg.minBitrate ≤ cfg.maxBitrate) (hs : 1 ≤ cfg.steps) :
    0 ≤ bitrateStep cfg :=
  Int.tdiv_nonneg (by omega) (by omega)

/-- C1: for a configuration with `minQuant ≤ maxQuant` and `steps ≥ 1`, and any
client counts `1 ≤ n ≤ m`, the quant level computed by the quant-scaling
adaptation lies in `[minQuant, maxQuant]` and is monotonically non-decreasing
in the client count. -/
theorem C1_computeQuant_bounds_monotone (cfg : StreamConfig) (n m : Int)
    (hq : cfg.minQuantLevel ≤ cfg.maxQuantLevel) (hs : 1 ≤ cfg.steps)
    (hn : 1 ≤ n) (hnm : n ≤ m) :
    cfg.minQuantLevel ≤ computeQuant n cfg ∧
    computeQuant n cfg ≤ cfg.maxQuantLevel ∧
    computeQuant n cfg ≤ computeQuant m cfg := by
  have hstep : 0 ≤ quantStep cfg := quantStep_nonneg cfg hq hs
  have h1 : 0 ≤ (n - 1) * quantStep cfg := mul_nonneg (by omega) hstep
  have h2 : (n - 1) * quantStep cfg ≤ (m - 1) * quantStep cfg :=
    mul_le_mul_of_nonneg_right (by omega) hstep
  simp only [computeQuant]
  split_ifs <;> omega

/-- Witness for C1 at a concrete configuration and client counts. -/
theorem C1_computeQuant_bounds_monotone_witness :
    let cfg : StreamConfig :=
      { minQuantLevel := 0, maxQuantLevel := 51, minBitrate := 1,
        maxBitrate := 0, steps := 4, enableVariableMode := true }
    (cfg.minQuantLevel ≤ cfg.maxQuantLevel ∧ (1 : Int) ≤ cfg.steps ∧
      (1 : Int) ≤ 2 ∧ (2 : Int) ≤ 6) ∧
    (cfg.minQuantLevel ≤ computeQuant 2 cfg ∧
     computeQuant 2 cfg ≤ cfg.maxQuantLevel ∧
     computeQuant 2 cfg ≤ computeQuant 6 cfg) :=
  ⟨by decide,
   C1_computeQuant_bounds_monotone _ 2 6 (by decide) (by decide) (by decide)
     (by decide)⟩

/-- C2: for a configuration with `minBitrate ≤ maxBitrate` and `steps ≥ 1`, and
any client counts `1 ≤ n ≤ m`, the bitrate computed by the bitrate-scaling
adaptation lies in `[minBitrate, maxBitrate]` and is monotonically
non-increasing in the client count. -/
theorem C2_computeBitrate_bounds_antitone (cfg : StreamConfig) (n m : Int)
    (hb : cfg.minBitrate ≤ cfg.maxBitrate) (hs : 1 ≤ cfg.steps)
    (hn : 1 ≤ n) (hnm : n ≤ m) :
    cfg.minBitrate ≤ computeBitrate n cfg ∧
    computeBitrate n cfg ≤ cfg.maxBitrate ∧
    computeBitrate m cfg ≤ computeBitrate n cfg := by
  have hstep : 0 ≤ bitrateStep cfg := bitrateStep_nonneg cfg hb hs
  have h1 : 0 ≤ (n - 1) * bitrateStep cfg := mul_nonneg (by omega) hstep
  have h2 : (n - 1) * bitrateStep cfg ≤ (m - 1) * bitrateStep cfg :=
    mul_le_mul_of_nonneg_right (by omega) hstep
  simp only [computeBitrate]
  split_ifs <;> omega

/-- Witness for C2 at a concrete configuration and client counts. -/
theorem C2_computeBitrate_bounds_antitone_witness :
    let cfg : StreamConfig :=
      { minQuantLevel := 0, maxQuantLevel := 51, minBitrate := 1,
        maxBitrate := 10000, steps := 4, enableVariableMode := true }
    (cfg.minBitrate ≤ cfg.maxBitrate ∧ (1 : Int) ≤ cfg.steps ∧
      (1 : Int) ≤ 2 ∧ (2 : Int) ≤ 6) ∧
    (cfg.minBitrate ≤ computeBitrate 2 cfg ∧
     computeBitrate 2 cfg ≤ cfg.maxBitrate ∧
     computeBitrate 6 cfg ≤ computeBitrate 2 cfg) :=
  ⟨by decide,
   C2_computeBitrate_bounds_antitone _ 2 6 (by decide) (by decide) (by decide)
     (by decide)⟩

lemma computeBitrate_ge_min (n : Int) (cfg : StreamConfig) :
    cfg.minBitrate ≤ computeBitrate n cfg := by
  unfold computeBitrate
  dsimp only
  split_ifs <;> omega

lemma change_bitrate_currentBitrate (cfg : StreamConfig) (s : ServerState) :
    (change_bitrate cfg s).1.currentBitrate = s.currentBitrate ∨
    (change_bitrate cfg s).1.currentBitrate =
      computeBitrate s.numConnectedClients cfg := by
  unfold change_bitrate
  dsimp only
  split_ifs <;> simp

lemma change_quant_currentBitrate (cfg : StreamConfig) (s : ServerState) :
    (change_quant cfg s).1.currentBitrate = s.currentBitrate := by
  unfold change_quant
  dsimp only
  split_ifs <;> rfl

lemma bitrateInv_of_eq (cfg : StreamConfig) {s t : ServerState}
    (h : t.currentBitrate = s.currentBitrate) (hs : BitrateInv cfg s) :
    BitrateInv cfg t := by
  unfold BitrateInv at *
  rw [h]
  exact hs

lemma adaptV14_bitrateInv (cfg : StreamConfig) (s : ServerState)
    (hmin : 1 ≤ cfg.minBitrate) (hinv : BitrateInv cfg s) :
    BitrateInv cfg (adaptV14 cfg s).1 := by
  obtain ⟨hnn, hiff⟩ := hinv
  unfold adaptV14
  split_ifs with hcb
  · show BitrateInv cfg (change_bitrate cfg s).1
    have hmaxpos : 0 < cfg.maxBitrate := hiff.mp (by omega)
    have hge := computeBitrate_ge_min s.numConnectedClients cfg
    rcases change_bitrate_currentBitrate cfg s with h | h <;>
      exact ⟨by omega, by constructor <;> intro <;> omega⟩
  · show BitrateInv cfg (change_quant cfg s).1
    have h := change_quant_currentBitrate cfg s
    exact ⟨by omega, by rw [h]; exact hiff⟩

lemma reachV14_bitrateInv (cfg : StreamConfig) (s : ServerState)
    (hcfg : ValidCfgV14 cfg) (h : ReachV14 cfg s) : BitrateInv cfg s := by
  obtain ⟨hmin, hmax, hsteps⟩ := hcfg
  induction h with
  | init => exact ⟨hmax, Iff.rfl⟩
  | step e h ih =>
    cases e with
    | attach =>
      simp only [stepV14]
      split_ifs
      · exact bitrateInv_of_eq cfg rfl ih
      · exact adaptV14_bitrateInv cfg _ hmin (bitrateInv_of_eq cfg rfl ih)
      · exact bitrateInv_of_eq cfg rfl ih
    | detach =>
      simp only [stepV14]
      split_ifs
      · exact bitrateInv_of_eq cfg rfl ih
      · exact adaptV14_bitrateInv cfg _ hmin (bitrateInv_of_eq cfg rfl ih)
      · exact bitrateInv_of_eq cfg rfl ih
    | mediaConfigure found =>
      simp only [stepV14]
      exact bitrateInv_of_eq cfg rfl ih

lemma adaptV14_log (cfg : StreamConfig) (s : ServerState)
    (hnn : 0 ≤ s.currentBitrate)
    (hiff : 0 < s.currentBitrate ↔ 0 < cfg.maxBitrate) :
    (adaptV14 cfg s).2.length = 1 ∧
    ((adaptV14 cfg s).2 = [.bitrate] ↔ 0 < cfg.maxBitrate) := by
  unfold adaptV14
  split_ifs with hcb
  · have hm : 0 < cfg.maxBitrate := hiff.mp (by omega)
    exact ⟨rfl, by simp [hm]⟩
  · have hm : ¬ 0 < cfg.maxBitrate := fun hp => hcb (by have := hiff.mpr hp; omega)
    exact ⟨rfl, by simp [hm]⟩

lemma adaptV15_log (cfg : StreamConfig) (s : ServerState)
    (hmax : 0 ≤ cfg.maxBitrate) :
    (adaptV15 cfg s).2.length = 1 ∧
    ((adaptV15 cfg s).2 = [.bitrate] ↔ 0 < cfg.maxBitrate) := by
  unfold adaptV15
  split_ifs with hcb
  · have hm : 0 < cfg.maxBitrate := by omega
    exact ⟨rfl, by simp [hm]⟩
  · have hm : ¬ 0 < cfg.maxBitrate := by omega
    exact ⟨rfl, by simp [hm]⟩

/-- C3: on an adaptation event (an attach beyond the first client, or a detach
with clients remaining) in variable mode, both variants invoke exactly one of
the two quality adaptations, and they invoke the bitrate one exactly when the
configured max bitrate is positive.  For v1.4, whose dispatch tests
`curr_bitrate`, this holds on every reachable state; v1.5 tests
`maxBitrate` directly. -/
theorem C3_adaptation_dispatch (cfg : StreamConfig) (s : ServerState)
    (e : Event) (hcfg : ValidCfgV14 cfg) (hreach : ReachV14 cfg s)
    (hvar : cfg.enableVariableMode = true)
    (hev : (e = .attach ∧ 1 ≤ s.numConnectedClients) ∨
           (e = .detach ∧ 2 ≤ s.numConnectedClients)) :
    ((stepV14 cfg s e).2.length = 1 ∧
      ((stepV14 cfg s e).2 = [.bitrate] ↔ 0 < cfg.maxBitrate)) ∧
    ((stepV15 cfg s e).2.length = 1 ∧
      ((stepV15 cfg s e).2 = [.bitrate] ↔ 0 < cfg.maxBitrate)) := by
  obtain ⟨hnn, hiff⟩ := reachV14_bitrateInv cfg s hcfg hreach
  obtain ⟨hmin, hmax, hsteps⟩ := hcfg
  rcases hev with ⟨rfl, hn⟩ | ⟨rfl, hn⟩
  · constructor
    · simp only [stepV14]
      rw [if_neg (by omega : ¬(s.numConnectedClients + 1 = 1)), if_pos hvar]
      exact adaptV14_log cfg _ hnn hiff
    · simp only [stepV15]
      rw [if_neg (by omega : ¬(s.numConnectedClients + 1 = 1)), if_pos hvar]
      exact adaptV15_log cfg _ hmax
  · constructor
    · simp only [stepV14]
      rw [if_neg (by omega : ¬(s.numConnectedClients - 1 = 0)), if_pos hvar]
      exact adaptV14_log cfg _ hnn hiff
    · simp only [stepV15]
      rw [if_neg (by omega : ¬(s.numConnectedClients - 1 = 0)), if_pos hvar]
      exact adaptV15_log cfg _ hmax

/-- Witness for C3: the dispatch at the concrete reachable state after two
attaches, under a bitrate-scaling configuration. -/
theorem C3_adaptation_dispatch_witness :
    let cfg : StreamConfig :=
      { minQuantLevel := 0, maxQuantLevel := 51, minBitrate := 1,
        maxBitrate := 10000, steps := 4, enableVariableMode := true }
    let s := (stepV14 cfg (initStateV14 cfg) .attach).1
    (ValidCfgV14 cfg ∧ cfg.enableVariableMode = true ∧
      (Event.attach = Event.attach ∧ 1 ≤ s.numConnectedClients)) ∧
    (((stepV14 cfg s .attach).2.length = 1 ∧
       ((stepV14 cfg s .attach).2 = [.bitrate] ↔ 0 < cfg.maxBitrate)) ∧
     ((stepV15 cfg s .attach).2.length = 1 ∧
       ((stepV15 cfg s .attach).2 = [.bitrate] ↔ 0 < cfg.maxBitrate))) :=
  ⟨by decide,
   C3_adaptation_dispatch _ _ .attach (by decide)
     (ReachV14.step .attach ReachV14.init) (by decide) (Or.inl ⟨rfl, by decide⟩)⟩

lemma change_quant_spec (cfg : StreamConfig) (s : ServerState) :
    change_quant cfg s =
      (if s.encoderBound = true
        then { s with currentQuantLevel := computeQuant s.numConnectedClients cfg }
        else s,
       decide (s.encoderBound = true ∧
         computeQuant s.numConnectedClients cfg ≠ s.currentQuantLevel)) := by
  unfold change_quant
  split_ifs <;> (simp_all; try (split_ifs <;> simp_all))

lemma changeQuant_spec (cfg : StreamConfig) (s : ServerState) :
    changeQuant cfg s =
      (if s.encoderBound = true ∧ 0 < cfg.maxQuantLevel
        then { s with currentQuantLevel := computeQuant s.numConnectedClients cfg }
        else s,
       decide ((s.encoderBound = true ∧ 0 < cfg.maxQuantLevel) ∧
         computeQuant s.numConnectedClients cfg ≠ s.currentQuantLevel)) := by
  unfold changeQuant
  split_ifs <;> (simp_all; try (split_ifs <;> simp_all))

lemma change_bitrate_spec (cfg : StreamConfig) (s : ServerState) :
    change_bitrate cfg s =
      (if s.encoderBound = true
        then { s with currentBitrate := computeBitrate s.numConnectedClients cfg }
        else s,
       decide (s.encoderBound = true ∧
         computeBitrate s.numConnectedClients cfg ≠ s.currentBitrate)) := by
  unfold change_bitrate
  split_ifs <;> (simp_all; try (split_ifs <;> simp_all))

lemma changeBitrate_spec (cfg : StreamConfig) (s : ServerState) :
    changeBitrate cfg s =
      (if s.encoderBound = true
        then { s with currentBitrate := computeBitrate s.numConnectedClients cfg }
        else s,
       decide (s.encoderBound = true ∧
         computeBitrate s.numConnectedClients cfg ≠ s.currentBitrate)) := by
  unfold changeBitrate
  split_ifs <;> (simp_all; try (split_ifs <;> simp_all))

/-- C8: recomputing a quality value a second time at the same client count
leaves the stored state unchanged and performs no second apply side effect
(the returned flag, i.e. the `g_object_set` call, is `false` on the second
run); moreover, each function applies the property exactly when the newly
computed value differs from the previously stored one.  Stated for all four
change functions (both variants, quant and bitrate). -/
theorem C8_recompute_idempotent_no_reapply (cfg : StreamConfig)
    (s : ServerState) :
    ((change_quant cfg (change_quant cfg s).1).1 = (change_quant cfg s).1 ∧
     (change_quant cfg (change_quant cfg s).1).2 = false ∧
     (change_quant cfg s).2 = decide (s.encoderBound = true ∧
       computeQuant s.numConnectedClients cfg ≠ s.currentQuantLevel)) ∧
    ((changeQuant cfg (changeQuant cfg s).1).1 = (changeQuant cfg s).1 ∧
     (changeQuant cfg (changeQuant cfg s).1).2 = false ∧
     (changeQuant cfg s).2 = decide ((s.encoderBound = true ∧
        0 < cfg.maxQuantLevel) ∧
       computeQuant s.numConnectedClients cfg ≠ s.currentQuantLevel)) ∧
    ((change_bitrate cfg (change_bitrate cfg s).1).1 = (change_bitrate cfg s).1 ∧
     (change_bitrate cfg (change_bitrate cfg s).1).2 = false ∧
     (change_bitrate cfg s).2 = decide (s.encoderBound = true ∧
       computeBitrate s.numConnectedClients cfg ≠ s.currentBitrate)) ∧
    ((changeBitrate cfg (changeBitrate cfg s).1).1 = (changeBitrate cfg s).1 ∧
     (changeBitrate cfg (changeBitrate cfg s).1).2 = false ∧
     (changeBitrate cfg s).2 = decide (s.encoderBound = true ∧
       computeBitrate s.numConnectedClients cfg ≠ s.currentBitrate)) := by
  refine ⟨⟨?_, ?_, ?_⟩, ⟨?_, ?_, ?_⟩, ⟨?_, ?_, ?_⟩, ⟨?_, ?_, ?_⟩⟩ <;>
    simp only [change_quant_spec, changeQuant_spec, change_bitrate_spec,
      changeBitrate_spec] <;>
    split_ifs <;> simp_all

/-- C10: the v1.5 `changeQuant` is a no-op (state unchanged, no encoder write)
whenever the configured `maxQuantLevel` is not positive; the v1.5 default
configuration sets `maxQuantLevel` to the minimum quant level 0 and
`maxBitrate` to 0, so quant scaling is the selected adaptation yet never
adjusts anything under the defaults. -/
theorem C10_default_quant_scaling_noop (cfg : StreamConfig) (s : ServerState)
    (h : cfg.maxQuantLevel ≤ 0) :
    changeQuant cfg s = (s, false) ∧
    defaultStreamInfoV15.maxQuantLevel = 0 ∧
    defaultStreamInfoV15.maxQuantLevel = defaultStreamInfoV15.minQuantLevel ∧
    changeQuant defaultStreamInfoV15 s = (s, false) ∧
    (adaptV15 defaultStreamInfoV15 s).2 = [.quant] := by
  have key : ∀ cfg' : StreamConfig, ∀ s' : ServerState,
      cfg'.maxQuantLevel ≤ 0 → changeQuant cfg' s' = (s', false) := by
    intro cfg' s' h'
    unfold changeQuant
    rw [if_neg (by rintro ⟨-, hq⟩; omega)]
  refine ⟨key cfg s h, rfl, rfl, key defaultStreamInfoV15 s (by decide), ?_⟩
  unfold adaptV15
  rw [if_neg (by decide)]

/-- Witness for C10 at a concrete state. -/
theorem C10_default_quant_scaling_noop_witness :
    let s : ServerState :=
      { numConnectedClients := 3, connected := true, encoderBound := true,
        currentQuantLevel := 0, currentBitrate := 0 }
    (defaultStreamInfoV15.maxQuantLevel ≤ 0) ∧
    (changeQuant defaultStreamInfoV15 s = (s, false) ∧
     defaultStreamInfoV15.maxQuantLevel = 0 ∧
     defaultStreamInfoV15.maxQuantLevel = defaultStreamInfoV15.minQuantLevel ∧
     changeQuant defaultStreamInfoV15 s = (s, false) ∧
     (adaptV15 defaultStreamInfoV15 s).2 = [.quant]) :=
  ⟨by decide, C10_default_quant_scaling_noop defaultStreamInfoV15 _ (by decide)⟩

/-- C4 counterexample: `setparam` with the unparsable value `abc` on a live
session (`unparsableValueCtx`, modelling `setparam:enc0::bitrate:abc`) DOES
set a property in both variants — contradicting the claim that an
unparsable parameter value results in no property being set.  v1.4 converts
with `atof`, which has no failure signal, and v1.5's `errno` test only fires
for range errors, so both fall through to `g_object_set_property` with the
converted value 0.0. -/
theorem C4_counterexample_unparsable_value_sets_property :
    propertyWasSet (doCommandSetParameter unparsableValueCtx "") = true ∧
    propertyWasSet (do_command_setparam unparsableValueCtx "").1 = true := by
  decide

/-- C4 as amended: in both variants no `setparam` path is fatal; every
failure path the code detects — not connected, pipeline unset, element not
found, requested pad not found, and (v1.5 only) the value conversion
reporting a range error via `errno` — sets no property, and the v1.4
variant always emits at least one best-effort status reply.  A merely
unparsable value is NOT among the detected failures: a property is set
exactly when the session is connected, the pipeline is bound, the element
lookup succeeded, any requested pad lookup succeeded, and (v1.5) `errno`
stayed clear — which it does for a no-conversion string, whose property is
then set to 0.0. -/
theorem C4_setparam_failures_harmless (ctx : SetParamCtx) (padName : String) :
    isFatalResult (doCommandSetParameter ctx padName) = false ∧
    isFatalResult (do_command_setparam ctx padName).1 = false ∧
    (propertyWasSet (doCommandSetParameter ctx padName) = true ↔
      (ctx.connected = true ∧ ctx.pipelineBound = true ∧
       ctx.elementFound = true ∧ (padName = "" ∨ ctx.padFound = true) ∧
       ctx.parseErrnoSet = false)) ∧
    (propertyWasSet (do_command_setparam ctx padName).1 = true ↔
      (ctx.connected = true ∧ ctx.pipelineBound = true ∧
       ctx.elementFound = true ∧ (padName = "" ∨ ctx.padFound = true))) ∧
    1 ≤ (do_command_setparam ctx padName).2 := by
  obtain ⟨c, p, el, pad, pe⟩ := ctx
  refine ⟨?_, ?_, ?_, ?_, ?_⟩ <;>
    by_cases hpn : padName = "" <;>
    cases c <;> cases p <;> cases el <;> cases pad <;> cases pe <;>
    simp_all [doCommandSetParameter, do_command_setparam, propertyWasSet,
      isFatalResult]

lemma parseLoop_cons_delim (c : Char) (rest : List Char)
    (params : Fin 5 → List Char) (d e : Nat) (h : c = ':' ∨ c = '\n') :
    parseLoop (c :: rest) params d e = parseLoop rest params (d + 1) e := by
  simp only [parseLoop]
  rw [if_pos h]

lemma parseLoop_cons_copy (c : Char) (rest : List Char)
    (params : Fin 5 → List Char) (d e : Nat) (h : ¬(c = ':' ∨ c = '\n'))
    (h4 : d ≤ 4) :
    parseLoop (c :: rest) params d e =
      parseLoop rest
        (Function.update params ⟨d, by omega⟩ (params ⟨d, by omega⟩ ++ [c]))
        d e := by
  simp only [parseLoop]
  rw [if_neg h, dif_pos h4]

lemma parseLoop_cons_extra (c : Char) (rest : List Char)
    (params : Fin 5 → List Char) (d e : Nat) (h : ¬(c = ':' ∨ c = '\n'))
    (h4 : ¬ d ≤ 4) :
    parseLoop (c :: rest) params d e = parseLoop rest params d (e + 1) := by
  simp only [parseLoop]
  rw [if_neg h, dif_neg h4]

lemma colonSplit_ne_nil (cs : List Char) : colonSplit cs ≠ [] := by
  cases cs with
  | nil => simp [colonSplit]
  | cons c rest =>
    simp only [colonSplit]
    split_ifs <;> simp

lemma colonSplit_cons_colon (rest : List Char) :
    colonSplit (':' :: rest) = [] :: colonSplit rest := by
  simp [colonSplit]

lemma colonSplit_cons_ne (c : Char) (rest : List Char) (h : c ≠ ':')
    (f : List Char) (fs : List (List Char)) (hs : colonSplit rest = f :: fs) :
    colonSplit (c :: rest) = (c :: f) :: fs := by
  simp only [colonSplit]
  rw [if_neg h, hs]
  simp

lemma colonSplit_exists_cons (rest : List Char) :
    ∃ f fs, colonSplit rest = f :: fs := by
  rcases h : colonSplit rest with - | ⟨f, fs⟩
  · exact absurd h (colonSplit_ne_nil rest)
  · exact ⟨f, fs, rfl⟩

lemma parseLoop_params (cs : List Char) : ∀ (params : Fin 5 → List Char)
    (d e : Nat), '\n' ∉ cs → (∀ j : Fin 5, d < j.val → params j = []) →
    ∀ i : Fin 5,
    (parseLoop cs params d e).1 i =
      if i.val < d then params i
      else (if i.val = d then params i else []) ++
        (colonSplit cs).getD (i.val - d) [] := by
  induction cs with
  | nil =>
    intro params d e hnl hp i
    have hi5 : i.val < 5 := i.isLt
    simp only [parseLoop, colonSplit]
    rcases lt_trichotomy i.val d with h | h | h
    · rw [if_pos h]
    · rw [if_neg (show ¬ i.val < d by omega), if_pos h]
      simp [show i.val - d = 0 by omega]
    · rw [if_neg (show ¬ i.val < d by omega),
        if_neg (show ¬ i.val = d by omega)]
      obtain ⟨k, hk⟩ : ∃ k, i.val - d = k + 1 := ⟨i.val - d - 1, by omega⟩
      rw [hk]
      simp [hp i (by omega)]
  | cons c rest ih =>
    intro params d e hnl hp i
    have hi5 : i.val < 5 := i.isLt
    have hc : c ≠ '\n' := by
      intro h
      apply hnl
      rw [h]
      exact List.mem_cons_self _ _
    have hnl2 : '\n' ∉ rest := fun h => hnl (List.mem_cons_of_mem c h)
    by_cases hdelim : c = ':' ∨ c = '\n'
    · have hcc : c = ':' := (or_iff_left hc).mp hdelim
      subst hcc
      rw [parseLoop_cons_delim ':' rest params d e hdelim,
        ih params (d + 1) e hnl2 (fun j hj => hp j (by omega)) i,
        colonSplit_cons_colon]
      rcases lt_trichotomy i.val d with h | h | h
      · rw [if_pos (show i.val < d + 1 by omega), if_pos h]
      · rw [if_pos (show i.val < d + 1 by omega),
          if_neg (show ¬ i.val < d by omega), if_pos h,
          show i.val - d = 0 by omega]
        simp
      · obtain ⟨k, hk⟩ : ∃ k, i.val - d = k + 1 := ⟨i.val - d - 1, by omega⟩
        rw [if_neg (show ¬ i.val < d + 1 by omega),
          if_neg (show ¬ i.val < d by omega),
          if_neg (show ¬ i.val = d by omega), hk, List.getD_cons_succ]
        rcases eq_or_lt_of_le (show d + 1 ≤ i.val by omega) with h1 | h1
        · rw [if_pos h1.symm, hp i (by omega),
            show i.val - (d + 1) = k by omega]
        · rw [if_neg (show ¬ i.val = d + 1 by omega),
            show i.val - (d + 1) = k by omega]
    · by_cases hd4 : d ≤ 4
      · have hcc : c ≠ ':' := fun h => hdelim (Or.inl h)
        obtain ⟨f, fs, hs⟩ := colonSplit_exists_cons rest
        have hp2 : ∀ j : Fin 5, d < j.val →
            Function.update params ⟨d, by omega⟩
              (params ⟨d, by omega⟩ ++ [c]) j = [] := by
          intro j hj
          rw [Function.update_noteq (by
            intro hh
            have : j.val = d := by rw [hh]
            omega)]
          exact hp j hj
        rw [parseLoop_cons_copy c rest params d e hdelim hd4,
          ih _ d e hnl2 hp2 i, colonSplit_cons_ne c rest hcc f fs hs, hs]
        rcases lt_trichotomy i.val d with h | h | h
        · rw [if_pos h, if_pos h, Function.update_noteq (by
            intro hh
            have : i.val = d := by rw [hh]
            omega)]
        · have hid : i = (⟨d, by omega⟩ : Fin 5) := by
            apply Fin.ext
            simpa using h
          rw [if_neg (show ¬ i.val < d by omega),
            if_neg (show ¬ i.val < d by omega), if_pos h, if_pos h,
            show i.val - d = 0 by omega, hid, Function.update_same]
          simp
        · obtain ⟨k, hk⟩ : ∃ k, i.val - d = k + 1 := ⟨i.val - d - 1, by omega⟩
          rw [if_neg (show ¬ i.val < d by omega),
            if_neg (show ¬ i.val < d by omega),
            if_neg (show ¬ i.val = d by omega),
            if_neg (show ¬ i.val = d by omega), hk]
          simp
      · rw [parseLoop_cons_extra c rest params d e hdelim hd4,
          ih params d (e + 1) hnl2 hp i, if_pos (show i.val < d by omega),
          if_pos (show i.val < d by omega)]

lemma parseLoop_delims (cs : List Char) : ∀ (params : Fin 5 → List Char)
    (d e : Nat), '\n' ∉ cs →
    (parseLoop cs params d e).2.1 = d + ((colonSplit cs).length - 1) := by
  induction cs with
  | nil =>
    intro params d e hnl
    simp [parseLoop, colonSplit]
  | cons c rest ih =>
    intro params d e hnl
    have hc : c ≠ '\n' := by
      intro h
      apply hnl
      rw [h]
      exact List.mem_cons_self _ _
    have hnl2 : '\n' ∉ rest := fun h => hnl (List.mem_cons_of_mem c h)
    obtain ⟨f, fs, hs⟩ := colonSplit_exists_cons rest
    by_cases hdelim : c = ':' ∨ c = '\n'
    · have hcc : c = ':' := (or_iff_left hc).mp hdelim
      subst hcc
      rw [parseLoop_cons_delim ':' rest params d e hdelim,
        ih params (d + 1) e hnl2, colonSplit_cons_colon, hs]
      simp only [List.length_cons]
      omega
    · have hcc : c ≠ ':' := fun h => hdelim (Or.inl h)
      by_cases hd4 : d ≤ 4
      · rw [parseLoop_cons_copy c rest params d e hdelim hd4,
          ih _ d e hnl2, colonSplit_cons_ne c rest hcc f fs hs, hs]
        simp
      · rw [parseLoop_cons_extra c rest params d e hdelim hd4,
          ih params d (e + 1) hnl2, colonSplit_cons_ne c rest hcc f fs hs, hs]
        simp

lemma parseLoop_extras (cs : List Char) : ∀ (params : Fin 5 → List Char)
    (d e : Nat), '\n' ∉ cs →
    (parseLoop cs params d e).2.2 =
      e + (((colonSplit cs).drop (5 - d)).map List.length).sum := by
  induction cs with
  | nil =>
    intro params d e hnl
    simp only [parseLoop, colonSplit]
    rcases Nat.eq_zero_or_pos (5 - d) with h | h
    · rw [h, List.drop_zero]
      simp
    · obtain ⟨k, hk⟩ : ∃ k, 5 - d = k + 1 := ⟨5 - d - 1, by omega⟩
      rw [hk, List.drop_succ_cons, List.drop_nil]
      simp
  | cons c rest ih =>
    intro params d e hnl
    have hc : c ≠ '\n' := by
      intro h
      apply hnl
      rw [h]
      exact List.mem_cons_self _ _
    have hnl2 : '\n' ∉ rest := fun h => hnl (List.mem_cons_of_mem c h)
    obtain ⟨f, fs, hs⟩ := colonSplit_exists_cons rest
    by_cases hdelim : c = ':' ∨ c = '\n'
    · have hcc : c = ':' := (or_iff_left hc).mp hdelim
      subst hcc
      rw [parseLoop_cons_delim ':' rest params d e hdelim,
        ih params (d + 1) e hnl2, colonSplit_cons_colon]
      by_cases hd4 : d ≤ 4
      · rw [show 5 - d = (5 - (d + 1)) + 1 by omega, List.drop_succ_cons]
      · rw [show 5 - d = 0 by omega, show 5 - (d + 1) = 0 by omega,
          List.drop_zero, List.drop_zero]
        simp
    · have hcc : c ≠ ':' := fun h => hdelim (Or.inl h)
      by_cases hd4 : d ≤ 4
      · rw [parseLoop_cons_copy c rest params d e hdelim hd4,
          ih _ d e hnl2, colonSplit_cons_ne c rest hcc f fs hs, hs,
          show 5 - d = (5 - (d + 1)) + 1 by omega, List.drop_succ_cons,
          List.drop_succ_cons]
      · rw [parseLoop_cons_extra c rest params d e hdelim hd4,
          ih params d (e + 1) hnl2, colonSplit_cons_ne c rest hcc f fs hs, hs,
          show 5 - d = 0 by omega, List.drop_zero, List.drop_zero]
        simp only [List.map_cons, List.sum_cons, List.length_cons]
        omega

lemma processParse_params (cmd : List Char) (hnl : '\n' ∉ cmd) (i : Fin 5) :
    (processParse cmd).1 i = (colonSplit cmd).getD i.val [] := by
  rw [processParse, parseLoop_params cmd _ 0 0 hnl (fun _ _ => rfl) i]
  simp

lemma processParse_delims (cmd : List Char) (hnl : '\n' ∉ cmd) :
    (processParse cmd).2.1 = (colonSplit cmd).length - 1 := by
  rw [processParse, parseLoop_delims cmd _ 0 0 hnl]
  omega

/-- C5: a command line read from the pipe (hence containing no newline) is
split on `:` into at most five fixed-order fields — field `i < 5` of the
parse equals the `i`-th colon-separated field of the line; the delimiter
count is the number of separators; every character belonging to a field
beyond the fifth is merely counted as a logged `extra character`, not an
error; and the dispatcher rejects a `setparam` line exactly when it carries
fewer than 4 delimiters (before the setparam handler runs). -/
theorem C5_command_split_and_reject (cmd : List Char) (hnl : '\n' ∉ cmd) :
    (∀ i : Fin 5, (processParse cmd).1 i = (colonSplit cmd).getD i.val []) ∧
    (processParse cmd).2.1 = (colonSplit cmd).length - 1 ∧
    (processParse cmd).2.2 =
      (((colonSplit cmd).drop 5).map List.length).sum ∧
    (processCommand cmd = .rejectedSetparam ↔
      ((colonSplit cmd).getD 0 [] = "setparam".toList ∧
        (colonSplit cmd).length - 1 < 4)) := by
  refine ⟨processParse_params cmd hnl, processParse_delims cmd hnl, ?_, ?_⟩
  · rw [processParse, parseLoop_extras cmd _ 0 0 hnl]
    simp
  · unfold processCommand
    rw [processParse_params cmd hnl 0, processParse_delims cmd hnl]
    simp only [Fin.val_zero]
    split_ifs with h1 h2 h3 h4 <;> simp_all

/-- Witness for C5 on the concrete line `setparam:enc0::bitrate` (three
delimiters, so the setparam handler must be rejected). -/
theorem C5_command_split_and_reject_witness :
    let cmd := "setparam:enc0::bitrate".toList
    ('\n' ∉ cmd) ∧
    ((∀ i : Fin 5, (processParse cmd).1 i = (colonSplit cmd).getD i.val []) ∧
     (processParse cmd).2.1 = (colonSplit cmd).length - 1 ∧
     (processParse cmd).2.2 =
       (((colonSplit cmd).drop 5).map List.length).sum ∧
     (processCommand cmd = .rejectedSetparam ↔
       ((colonSplit cmd).getD 0 [] = "setparam".toList ∧
         (colonSplit cmd).length - 1 < 4))) :=
  ⟨by decide, C5_command_split_and_reject _ (by decide)⟩

/-- C7: with `minQuant=0, maxQuant=51, steps=4` the step is 12; at one client
the quant level is 0, at five clients it is 48, and at ten clients it clamps
to 51. -/
theorem C7_scenario_quant_values :
    quantStep scenarioConfig = 12 ∧
    computeQuant 1 scenarioConfig = 0 ∧
    computeQuant 5 scenarioConfig = 48 ∧
    computeQuant 10 scenarioConfig = 51 := by
  decide

lemma lineSplit_ne_nil (cs : List Char) : lineSplit cs ≠ [] := by
  cases cs with
  | nil => simp [lineSplit]
  | cons c rest =>
    simp only [lineSplit]
    split_ifs <;> simp

lemma lineSplit_cons_nl (rest : List Char) :
    lineSplit ('\n' :: rest) = [] :: lineSplit rest := by
  simp [lineSplit]

lemma lineSplit_cons_ne (c : Char) (rest : List Char) (h : c ≠ '\n')
    (f : List Char) (fs : List (List Char)) (hs : lineSplit rest = f :: fs) :
    lineSplit (c :: rest) = (c :: f) :: fs := by
  simp only [lineSplit]
  rw [if_neg h, hs]
  simp

lemma lineSplit_no_nl (p : List Char) (h : '\n' ∉ p) : lineSplit p = [p] := by
  induction p with
  | nil => rfl
  | cons c pr ih =>
    have hc : c ≠ '\n' := by
      intro hh
      apply h
      rw [hh]
      exact List.mem_cons_self _ _
    have h2 : '\n' ∉ pr := fun hh => h (List.mem_cons_of_mem c hh)
    rw [lineSplit_cons_ne c pr hc pr [] (ih h2)]

lemma lineSplit_append_nl (p xs : List Char) (h : '\n' ∉ p) :
    lineSplit (p ++ '\n' :: xs) = p :: lineSplit xs := by
  induction p with
  | nil => simp [lineSplit_cons_nl]
  | cons c pr ih =>
    have hc : c ≠ '\n' := by
      intro hh
      apply h
      rw [hh]
      exact List.mem_cons_self _ _
    have h2 : '\n' ∉ pr := fun hh => h (List.mem_cons_of_mem c hh)
    rw [List.cons_append,
      lineSplit_cons_ne c (pr ++ '\n' :: xs) hc pr (lineSplit xs) (ih h2)]

lemma readerRun_byte_acc (c : Char) (rest : List ReadResult) (buf : List Char)
    (h : c ≠ '\n') :
    readerRun (.byte c :: rest) buf = readerRun rest (buf ++ [c]) := by
  simp only [readerRun]
  rw [if_pos h]

lemma readerRun_byte_nl_long (c : Char) (rest : List ReadResult)
    (buf : List Char) (hc : c = '\n') (h : 256 ≤ buf.length) :
    readerRun (.byte c :: rest) buf = readerRun rest [] := by
  simp only [readerRun]
  rw [if_neg (by simp [hc]), if_pos h]

lemma readerRun_byte_nl_mid (c : Char) (rest : List ReadResult)
    (buf : List Char) (hc : c = '\n') (h1 : ¬ 256 ≤ buf.length)
    (h2 : 0 < buf.length) :
    readerRun (.byte c :: rest) buf = buf :: readerRun rest [] := by
  simp only [readerRun]
  rw [if_neg (by simp [hc]), if_neg h1, if_pos h2]

lemma readerRun_byte_nl_empty (c : Char) (rest : List ReadResult)
    (buf : List Char) (hc : c = '\n') (h1 : ¬ 256 ≤ buf.length)
    (h2 : ¬ 0 < buf.length) :
    readerRun (.byte c :: rest) buf = readerRun rest buf := by
  simp only [readerRun]
  rw [if_neg (by simp [hc]), if_neg h1, if_neg h2]

lemma readerRun_noData (rest : List ReadResult) (buf : List Char) :
    readerRun (.noData :: rest) buf =
      if 256 ≤ buf.length then []
      else if 0 < buf.length then [buf]
      else [] := by
  simp only [readerRun]

lemma readerRun_dispatch (bytes : List Char) : ∀ (rest : List ReadResult)
    (buf : List Char), '\n' ∉ buf →
    readerRun (bytes.map .byte ++ .noData :: rest) buf =
      (lineSplit (buf ++ bytes)).filter validLine := by
  induction bytes with
  | nil =>
    intro rest buf hb
    rw [List.map_nil, List.nil_append, List.append_nil,
      lineSplit_no_nl buf hb, readerRun_noData]
    by_cases h1 : 256 ≤ buf.length
    · rw [if_pos h1]
      have hv : validLine buf = false := by
        simp only [validLine]
        simp
        omega
      simp [List.filter_cons, hv]
    · rw [if_neg h1]
      by_cases h2 : 0 < buf.length
      · rw [if_pos h2]
        have hv : validLine buf = true := by
          simp only [validLine]
          simp
          omega
        simp [List.filter_cons, hv]
      · rw [if_neg h2]
        have hv : validLine buf = false := by
          simp only [validLine]
          simp
          omega
        simp [List.filter_cons, hv]
  | cons b bs ih =>
    intro rest buf hb
    rw [List.map_cons, List.cons_append]
    by_cases hc : b = '\n'
    · rw [show buf ++ b :: bs = buf ++ '\n' :: bs from by rw [hc],
        lineSplit_append_nl buf bs hb]
      by_cases h1 : 256 ≤ buf.length
      · rw [readerRun_byte_nl_long b _ buf hc h1, ih rest [] (by simp),
          List.nil_append]
        have hv : validLine buf = false := by
          simp only [validLine]
          simp
          omega
        simp [List.filter_cons, hv]
      · by_cases h2 : 0 < buf.length
        · rw [readerRun_byte_nl_mid b _ buf hc h1 h2, ih rest [] (by simp),
            List.nil_append]
          have hv : validLine buf = true := by
            simp only [validLine]
            simp
            omega
          simp [List.filter_cons, hv]
        · have hbuf : buf = [] := by
            cases buf with
            | nil => rfl
            | cons x xs => simp at h2
          subst hbuf
          rw [readerRun_byte_nl_empty b _ [] hc h1 h2, ih rest [] (by simp),
            List.nil_append]
          have hv : validLine [] = false := by decide
          simp [List.filter_cons, hv]
    · have hb2 : '\n' ∉ buf ++ [b] := by
        intro h
        rcases List.mem_append.mp h with h | h
        · exact hb h
        · simp at h
          exact hc h.symm
      rw [readerRun_byte_acc b _ buf hc, ih rest (buf ++ [b]) hb2,
        List.append_assoc, List.singleton_append]

/-- C6 counterexample: the input stream delivers the bytes `s`, `t`, `a`
(no newline anywhere) and then the non-blocking read reports no more data;
the reader nevertheless dispatches `sta` as a command, so bytes of a line
whose newline has not arrived ARE dispatched. -/
theorem C6_counterexample_partial_line_dispatched :
    (['s', 't', 'a'] : List Char).contains '\n' = false ∧
    readerRun [.byte 's', .byte 't', .byte 'a', .noData] [] =
      [['s', 't', 'a']] := by
  decide

/-- C6 as amended: starting from an empty buffer, the commands the reader
dispatches from the available bytes are exactly the nonempty newline-separated
segments shorter than 256 bytes, INCLUDING the trailing segment whose
newline has not yet arrived when the read reports no more data (the code
dispatches a nonempty partial line instead of retaining it for the next
poll). -/
theorem C6_reader_dispatches_available_lines (bytes : List Char)
    (rest : List ReadResult) :
    readerRun (bytes.map .byte ++ .noData :: rest) [] =
      (lineSplit bytes).filter validLine := by
  have h := readerRun_dispatch bytes rest [] (by simp)
  simpa using h

lemma send_v14_dead (openRes : Nat → Int) (s : StatusPipeState)
    (hfd : s.statusPipeFd ≠ 0) (hstream : s.statusPipeStream = none) :
    send_status_pipe_msg openRes s = (s, .log) := by
  unfold send_status_pipe_msg setup_status_pipe_if_needed
  rw [if_neg (by rintro ⟨-, h⟩; exact hfd h)]
  simp [hstream]

lemma send_v14_first_fail (openRes : Nat → Int) (s : StatusPipeState)
    (hc : s.statusPipeConfigured = true) (hfd : s.statusPipeFd = 0)
    (hfail : openRes s.openCalls = -1) :
    send_status_pipe_msg openRes s =
      ({ s with statusPipeFd := -1, openCalls := s.openCalls + 1,
                statusPipeStream := none }, .log) := by
  unfold send_status_pipe_msg setup_status_pipe_if_needed
  rw [if_pos ⟨hc, hfd⟩, hfail]
  simp [fdopenModel]

/-- C9 counterexample (v1.5): from the v1.5 startup state with a configured
status pipe, the first emission's `open` fails and the emission goes to the
log — but the second emission performs ANOTHER `open` call (two open calls in
total), and because a reader has attached by then, it goes to the pipe.  The
fallback is neither permanent nor open-attempt-free after the first failure. -/
theorem C9_counterexample_v15_reopens :
    (sendStatusPipeMessage (fun k => if k = 0 then -1 else 7)
      { statusPipeConfigured := true, statusPipeFd := -1,
        statusPipeStream := none, openCalls := 0 }).2 = .log ∧
    (sendStatusPipeMessage (fun k => if k = 0 then -1 else 7)
      (sendStatusPipeMessage (fun k => if k = 0 then -1 else 7)
        { statusPipeConfigured := true, statusPipeFd := -1,
          statusPipeStream := none, openCalls := 0 }).1).1.openCalls = 2 ∧
    (sendStatusPipeMessage (fun k => if k = 0 then -1 else 7)
      (sendStatusPipeMessage (fun k => if k = 0 then -1 else 7)
        { statusPipeConfigured := true, statusPipeFd := -1,
          statusPipeStream := none, openCalls := 0 }).1).2 = .pipe := by
  decide

/-- C9 as amended: in the v1.4 variant the fallback IS permanent — when the
first needed `open` fails (returns -1), that emission and every following
emission go to the log, and no further `open` call is ever made (the guard
tests `status_pipe_fd == 0` and the fd now holds -1).  In the v1.5 variant a
failed open leaves the fd equal to the `NO_FILE` sentinel, so an emission
finding the sentinel always performs a fresh `open` attempt: the fallback is
per-emission, not permanent. -/
theorem C9_v14_fallback_permanent (openRes : Nat → Int) (s0 : StatusPipeState)
    (n : Nat) (hc : s0.statusPipeConfigured = true)
    (hfd : s0.statusPipeFd = 0) (_hstream : s0.statusPipeStream = none)
    (hfail : openRes s0.openCalls = -1) :
    ((sendIterV14 openRes s0 n).2 = .log ∧
     (sendIterV14 openRes s0 n).1.openCalls = s0.openCalls + 1 ∧
     (sendIterV14 openRes s0 n).1.statusPipeFd = -1 ∧
     (sendIterV14 openRes s0 n).1.statusPipeStream = none) ∧
    (sendStatusPipeMessage openRes
      { s0 with statusPipeFd := -1 }).1.openCalls = s0.openCalls + 1 := by
  constructor
  · induction n with
    | zero =>
      simp only [sendIterV14]
      rw [send_v14_first_fail openRes s0 hc hfd hfail]
      exact ⟨rfl, rfl, rfl, rfl⟩
    | succ n ih =>
      obtain ⟨-, h2, h3, h4⟩ := ih
      simp only [sendIterV14]
      rw [send_v14_dead openRes _ (by rw [h3]; decide) h4]
      exact ⟨rfl, h2, h3, h4⟩
  · unfold sendStatusPipeMessage setupStatusPipeIfNeeded
    rw [if_pos ⟨hc, rfl⟩]
    split_ifs <;> rfl

/-- Witness for the amended C9 at a concrete environment and state. -/
theorem C9_v14_fallback_permanent_witness :
    let s0 : StatusPipeState :=
      { statusPipeConfigured := true, statusPipeFd := 0,
        statusPipeStream := none, openCalls := 0 }
    let env : Nat → Int := fun _ => -1
    (s0.statusPipeConfigured = true ∧ s0.statusPipeFd = 0 ∧
      s0.statusPipeStream = none ∧ env s0.openCalls = -1) ∧
    (((sendIterV14 env s0 2).2 = .log ∧
      (sendIterV14 env s0 2).1.openCalls = s0.openCalls + 1 ∧
      (sendIterV14 env s0 2).1.statusPipeFd = -1 ∧
      (sendIterV14 env s0 2).1.statusPipeStream = none) ∧
     (sendStatusPipeMessage env
       { s0 with statusPipeFd := -1 }).1.openCalls = s0.openCalls + 1) :=
  ⟨⟨rfl, rfl, rfl, rfl⟩,
   C9_v14_fallback_permanent (fun _ => -1) _ 2 rfl rfl rfl rfl⟩

end GstRtsp
